import Mathlib

/-!
Verification of the NApps CLI command layer (`kytos/cli/commands/napps/api.py`).

The file shallowly embeds the `NAppsAPI` dispatcher functions from the source.
The `NAppsManager` collaborator is not part of the given sources, so its
operations are modelled from the specification (sections 4.2 and 4.4): each
such definition carries a doc comment starting with `Modelled from the spec:`.
Per-plugin local state is the pair of booleans (installed, enabled) that the
spec identifies as the on-disk state; the environment records whether a local
source exists and how the remote registry answers.
-/

/-- Per-plugin on-disk state: code present under the install root, and an
active marker under the enabled root. -/
structure NAppState where
  installed : Bool
  enabled : Bool
deriving DecidableEq, Repr, Fintype

/-- Outcome of attempting a local-source installation for one identity. -/
inductive LocalResult where
  | ok
  | notFound
  | otherErr
deriving DecidableEq, Repr

/-- Outcome of contacting the remote registry for one identity:
either success or an HTTP error with its status code. -/
inductive RemoteResult where
  | ok
  | httpErr : Nat → RemoteResult
deriving DecidableEq, Repr

/-- Environment for one identity: whether a local source installation would
succeed, and how the registry would answer. -/
structure Env where
  localResult : LocalResult
  remote : RemoteResult
deriving DecidableEq, Repr

/-- Errors raised by the modelled manager's local filesystem operations
(spec section 7 taxonomy: NotFound, PermissionDenied). -/
inductive LocalErr where
  | fileNotFound
  | permissionError
deriving DecidableEq, Repr

/-- Modelled from the spec: `NAppsManager.is_enabled` queries the enabled
marker (section 4.2, never throws). -/
def NAppsManager.is_enabled (s : NAppState) : Bool := s.enabled

/-- Modelled from the spec: `NAppsManager.is_installed` queries the install
root (section 4.2, never throws). -/
def NAppsManager.is_installed (s : NAppState) : Bool := s.installed

/-- Modelled from the spec: `NAppsManager.enable` activates the plugin.
Section 4.4: precondition is that the install path exists; otherwise the
operation fails with NotFound (raised as FileNotFoundError). -/
def NAppsManager.enable (s : NAppState) : Except LocalErr NAppState :=
  if s.installed then .ok { s with enabled := true }
  else .error .fileNotFound

/-- Modelled from the spec: `NAppsManager.disable` removes the enabled
marker. Section 4.4: always succeeds once enabled; idempotent (4.2). -/
def NAppsManager.disable (s : NAppState) : NAppState :=
  { s with enabled := false }

/-- Modelled from the spec: `NAppsManager.uninstall` removes the installed
code (the local state store's markUninstalled primitive, section 4.2). It
does not touch the enabled marker: in the source, `NAppsAPI.uninstall`
calls `disable_napp` separately after `mgr.uninstall()`, and `disable_napp`
re-checks `is_enabled`, which only makes sense if uninstalling leaves the
enabled marker in place. -/
def NAppsManager.uninstall (s : NAppState) : NAppState :=
  { s with installed := false }

/-- Modelled from the spec: `NAppsManager.install_local` installs from a
local source tree. Section 4.4: fails with NotFound (FileNotFoundError) when
no local source matches; a filesystem PermissionDenied is also possible
(section 7 taxonomy) and is not caught by the caller. -/
def NAppsManager.install_local (env : Env) (s : NAppState) : Except LocalErr NAppState :=
  match env.localResult with
  | .ok => .ok { s with installed := true }
  | .notFound => .error .fileNotFound
  | .otherErr => .error .permissionError

/-- Modelled from the spec: `NAppsManager.install_remote` fetches and
installs from the registry; a non-2xx response surfaces as an HTTPError
carrying the status code (section 4.3). -/
def NAppsManager.install_remote (env : Env) (s : NAppState) : Except Nat NAppState :=
  match env.remote with
  | .ok => .ok { s with installed := true }
  | .httpErr c => .error c

/-- Rendering of a caught local error, as interpolated by `log.error('  %s', e)`. -/
def errText : LocalErr → String
  | .fileNotFound => "FileNotFoundError"
  | .permissionError => "PermissionError"

/-- Embeds `NAppsAPI.disable_napp`: if enabled, disable; always log Disabled. -/
def NAppsAPI.disable_napp (s : NAppState) : NAppState × List String :=
  if NAppsManager.is_enabled s then
    (NAppsManager.disable s, ["  Disabling...", "  Disabled."])
  else (s, ["  Disabled."])

/-- Embeds `NAppsAPI.enable_napp`: inside a try block, enable unless already
enabled, then log Enabled; FileNotFoundError and PermissionError are caught
and logged. -/
def NAppsAPI.enable_napp (s : NAppState) : NAppState × List String :=
  if NAppsManager.is_enabled s then (s, ["  Enabled."])
  else
    match NAppsManager.enable s with
    | .ok s1 => (s1, ["  Enabling...", "  Enabled."])
    | .error e => (s, ["  Enabling...", "  " ++ errText e])

deriving instance DecidableEq for Except

/-- Result of `NAppsAPI.install_napp` on one identity: the final state (or an
uncaught exception), whether the remote registry was contacted, and the log. -/
structure InstallResult where
  outcome : Except LocalErr NAppState
  contacted : Bool
  log : List String
deriving DecidableEq, Repr

/-- Log line reporting a registry error other than 404, with the status
detail interpolated for `log.error('  NApps Server error: %s', e)`. -/
def serverErrText (c : Nat) : String :=
  "  NApps Server error: HTTP Error " ++ toString c

/-- Embeds `NAppsAPI.install_napp`: try a local install; on FileNotFoundError
fall back to the registry, where an HTTPError is caught and reported (404 as
NApp not found, anything else as a server error); after either successful
install path, `enable_napp` runs. Any other local error is not caught. -/
def NAppsAPI.install_napp (env : Env) (s : NAppState) : InstallResult :=
  match NAppsManager.install_local env s with
  | .ok s1 =>
      let r := NAppsAPI.enable_napp s1
      ⟨.ok r.1, false, ["  Searching local NApp...", "  Installed."] ++ r.2⟩
  | .error .permissionError =>
      ⟨.error .permissionError, false, ["  Searching local NApp..."]⟩
  | .error .fileNotFound =>
      match NAppsManager.install_remote env s with
      | .ok s1 =>
          let r := NAppsAPI.enable_napp s1
          ⟨.ok r.1, true,
            ["  Searching local NApp...", "  Downloading from NApps Server...",
             "  Installed."] ++ r.2⟩
      | .error c =>
          if c = 404 then
            ⟨.ok s, true,
              ["  Searching local NApp...", "  Downloading from NApps Server...",
               "  NApp not found."]⟩
          else
            ⟨.ok s, true,
              ["  Searching local NApp...", "  Downloading from NApps Server...",
               serverErrText c]⟩

/-- Embeds the body of `NAppsAPI.install` for one identity: call
`install_napp` only when the plugin is not installed, else just log. -/
def NAppsAPI.installOne (env : Env) (s : NAppState) : InstallResult :=
  if NAppsManager.is_installed s then ⟨.ok s, false, ["  Installed."]⟩
  else NAppsAPI.install_napp env s

/-- Embeds the body of `NAppsAPI.uninstall` for one identity: if installed,
run `mgr.uninstall()` and then `disable_napp`; always log Uninstalled. -/
def NAppsAPI.uninstallOne (s : NAppState) : NAppState × List String :=
  if NAppsManager.is_installed s then
    let s1 := NAppsManager.uninstall s
    let r := NAppsAPI.disable_napp s1
    (r.1, ["  Uninstalling..."] ++ r.2 ++ ["  Uninstalled."])
  else (s, ["  Uninstalled."])

/-- The sequence of on-disk states an identity passes through during
`NAppsAPI.uninstall`: initial state, state after `mgr.uninstall()`, state
after the trailing `disable_napp`. -/
def NAppsAPI.uninstallTrace (s : NAppState) : List NAppState :=
  if NAppsManager.is_installed s then
    let s1 := NAppsManager.uninstall s
    [s, s1, (NAppsAPI.disable_napp s1).1]
  else [s]

/-- Log header emitted for each identity by every batch verb,
`log.info('NApp %s:', mgr.napp_id)`. -/
def headerText (napp : String) : String := "NApp " ++ napp ++ ":"

/-- Embeds the `NAppsAPI.enable` classmethod: sequentially run `enable_napp`
on each identity of the batch, collecting final states and log lines. -/
def NAppsAPI.enable : List (String × NAppState) → List NAppState × List String
  | [] => ([], [])
  | x :: xs =>
      let r := NAppsAPI.enable_napp x.2
      let rest := NAppsAPI.enable xs
      (r.1 :: rest.1, (headerText x.1 :: r.2) ++ rest.2)

/-- Embeds the `NAppsAPI.disable` classmethod: sequentially run
`disable_napp` on each identity of the batch. -/
def NAppsAPI.disable : List (String × NAppState) → List NAppState × List String
  | [] => ([], [])
  | x :: xs =>
      let r := NAppsAPI.disable_napp x.2
      let rest := NAppsAPI.disable xs
      (r.1 :: rest.1, (headerText x.1 :: r.2) ++ rest.2)

/-- Embeds the `NAppsAPI.uninstall` classmethod: sequentially uninstall each
identity of the batch. -/
def NAppsAPI.uninstall : List (String × NAppState) → List NAppState × List String
  | [] => ([], [])
  | x :: xs =>
      let r := NAppsAPI.uninstallOne x.2
      let rest := NAppsAPI.uninstall xs
      (r.1 :: rest.1, (headerText x.1 :: r.2) ++ rest.2)

/-- Embeds the `NAppsAPI.install` classmethod: sequentially install each
identity; an exception not caught inside `install_napp` (a local
PermissionError) aborts the remaining batch, as an uncaught Python exception
would. -/
def NAppsAPI.install : List (String × Env × NAppState) → Except LocalErr (List NAppState × List String)
  | [] => .ok ([], [])
  | x :: xs =>
      let r := NAppsAPI.installOne x.2.1 x.2.2
      match r.outcome with
      | .error e => .error e
      | .ok s1 =>
          match NAppsAPI.install xs with
          | .error e => .error e
          | .ok rest => .ok (s1 :: rest.1, (headerText x.1 :: r.log) ++ rest.2)

/-- Final state of one identity after the install verb, when no uncaught
exception occurs. -/
def NAppsAPI.installOneState (env : Env) (s : NAppState) : NAppState :=
  match (NAppsAPI.installOne env s).outcome with
  | .ok s1 => s1
  | .error _ => s

/-- The state component of `enable_napp` never changes the installed flag. -/
theorem enable_napp_installed (s : NAppState) :
    ((NAppsAPI.enable_napp s).1).installed = s.installed := by
  revert s; decide

/-- On an installed plugin, `enable_napp` always ends installed and enabled. -/
theorem enable_napp_of_installed (s : NAppState) (h : s.installed = true) :
    (NAppsAPI.enable_napp s).1 = ⟨true, true⟩ := by
  revert h; revert s; decide

/-- When the environment offers only the failure modes of the spec's
transition table for local install (NotFound, never PermissionDenied), the
install verb body never raises an uncaught exception. -/
theorem installOne_outcome_ok (env : Env) (s : NAppState)
    (h : env.localResult ≠ LocalResult.otherErr) :
    ∃ t, (NAppsAPI.installOne env s).outcome = Except.ok t := by
  rcases env with ⟨lr, rr⟩
  by_cases hi : s.installed
  · exact ⟨s, by simp [NAppsAPI.installOne, NAppsManager.is_installed, hi]⟩
  · cases lr with
    | ok =>
        refine ⟨(NAppsAPI.enable_napp { s with installed := true }).1, ?_⟩
        simp [NAppsAPI.installOne, NAppsManager.is_installed, hi,
          NAppsAPI.install_napp, NAppsManager.install_local]
    | otherErr => exact absurd rfl h
    | notFound =>
        cases rr with
        | ok =>
            refine ⟨(NAppsAPI.enable_napp { s with installed := true }).1, ?_⟩
            simp [NAppsAPI.installOne, NAppsManager.is_installed, hi,
              NAppsAPI.install_napp, NAppsManager.install_local,
              NAppsManager.install_remote]
        | httpErr c =>
            refine ⟨s, ?_⟩
            by_cases hc : c = 404 <;>
              simp [NAppsAPI.installOne, NAppsManager.is_installed, hi,
                NAppsAPI.install_napp, NAppsManager.install_local,
                NAppsManager.install_remote, hc]

/-- C1 counterexample: starting from an installed and enabled plugin, the
uninstall verb's state trace is initial, then code-removed-but-still-enabled,
then absent; the INSTALLED state (installed, not enabled) never occurs, so
the code is removed while the plugin is still enabled, contrary to the
claimed disable-then-delete ordering. -/
theorem spec_C1_counterexample :
    NAppsAPI.uninstallTrace ⟨true, true⟩ =
      [⟨true, true⟩, ⟨false, true⟩, ⟨false, false⟩]
    ∧ (⟨true, false⟩ : NAppState) ∉ NAppsAPI.uninstallTrace ⟨true, true⟩ := by
  decide

/-- C1 (amended): for every installed and enabled plugin, the uninstall verb
removes the installed code first and disables afterwards: the plugin
transitions through the state (installed := false, enabled := true) — the
code is deleted while the plugin is still enabled — before reaching ABSENT,
and the final state is absent and disabled. -/
theorem spec_C1 : ∀ s : NAppState, s.installed = true → s.enabled = true →
    NAppsAPI.uninstallTrace s = [s, ⟨false, true⟩, ⟨false, false⟩]
    ∧ (NAppsAPI.uninstallOne s).1 = ⟨false, false⟩ := by
  decide

/-- Witness for C1 (amended) at the installed-and-enabled state. -/
theorem spec_C1_witness :
    NAppsAPI.uninstallTrace ⟨true, true⟩ =
      [⟨true, true⟩, ⟨false, true⟩, ⟨false, false⟩]
    ∧ (NAppsAPI.uninstallOne ⟨true, true⟩).1 = ⟨false, false⟩ :=
  spec_C1 ⟨true, true⟩ rfl rfl

/-- C2: `install_napp` contacts the registry exactly when the local install
attempt fails with NotFound; when a local source exists the install succeeds
locally and the registry is never contacted; a local failure other than
NotFound (PermissionError) does not trigger the remote fallback and instead
propagates. -/
theorem spec_C2 : ∀ (env : Env) (s : NAppState),
    ((NAppsAPI.install_napp env s).contacted = true ↔
      env.localResult = LocalResult.notFound)
    ∧ (env.localResult = LocalResult.ok →
        (NAppsAPI.install_napp env s).contacted = false
        ∧ ∃ s1, (NAppsAPI.install_napp env s).outcome = Except.ok s1
            ∧ s1.installed = true)
    ∧ (env.localResult = LocalResult.otherErr →
        (NAppsAPI.install_napp env s).contacted = false
        ∧ (NAppsAPI.install_napp env s).outcome =
            Except.error LocalErr.permissionError) := by
  intro env s
  rcases env with ⟨lr, rr⟩
  cases lr with
  | ok =>
      refine ⟨by simp [NAppsAPI.install_napp, NAppsManager.install_local], ?_, by simp⟩
      intro _
      refine ⟨by simp [NAppsAPI.install_napp, NAppsManager.install_local], ?_⟩
      refine ⟨(NAppsAPI.enable_napp { s with installed := true }).1,
        by simp [NAppsAPI.install_napp, NAppsManager.install_local], ?_⟩
      rw [enable_napp_installed]
  | notFound =>
      cases rr with
      | ok =>
          exact ⟨by simp [NAppsAPI.install_napp, NAppsManager.install_local,
            NAppsManager.install_remote], by simp, by simp⟩
      | httpErr c =>
          refine ⟨?_, by simp, by simp⟩
          by_cases hc : c = 404 <;>
            simp [NAppsAPI.install_napp, NAppsManager.install_local,
              NAppsManager.install_remote, hc]
  | otherErr =>
      exact ⟨by simp [NAppsAPI.install_napp, NAppsManager.install_local],
        by simp,
        fun _ => ⟨by simp [NAppsAPI.install_napp, NAppsManager.install_local],
          by simp [NAppsAPI.install_napp, NAppsManager.install_local]⟩⟩

/-- Witness for C2: with a local source present, the registry is not
contacted and the install ends with the plugin installed. -/
theorem spec_C2_witness :
    ((NAppsAPI.install_napp ⟨LocalResult.ok, RemoteResult.ok⟩ ⟨false, false⟩).contacted = true ↔
      (⟨LocalResult.ok, RemoteResult.ok⟩ : Env).localResult = LocalResult.notFound)
    ∧ ((NAppsAPI.install_napp ⟨LocalResult.ok, RemoteResult.ok⟩ ⟨false, false⟩).contacted = false
        ∧ ∃ s1, (NAppsAPI.install_napp ⟨LocalResult.ok, RemoteResult.ok⟩ ⟨false, false⟩).outcome =
            Except.ok s1 ∧ s1.installed = true) :=
  ⟨(spec_C2 ⟨LocalResult.ok, RemoteResult.ok⟩ ⟨false, false⟩).1,
    (spec_C2 ⟨LocalResult.ok, RemoteResult.ok⟩ ⟨false, false⟩).2.1 rfl⟩

/-- C3: for a plugin that is not yet installed, whenever `install_napp`
completes without an uncaught exception and leaves the plugin installed
(i.e. one of the two install paths succeeded), the plugin is also enabled;
in particular a successful local install or a successful remote install ends
in the installed-and-enabled state. -/
theorem spec_C3 : ∀ (env : Env) (s : NAppState), s.installed = false →
    (∀ s1, (NAppsAPI.install_napp env s).outcome = Except.ok s1 →
      s1.installed = true → s1.enabled = true)
    ∧ (env.localResult = LocalResult.ok ∨
        (env.localResult = LocalResult.notFound ∧ env.remote = RemoteResult.ok) →
        (NAppsAPI.install_napp env s).outcome = Except.ok ⟨true, true⟩) := by
  intro env s hs
  rcases env with ⟨lr, rr⟩
  have hloc : (NAppsAPI.enable_napp { s with installed := true }).1 = ⟨true, true⟩ :=
    enable_napp_of_installed _ rfl
  cases lr with
  | ok =>
      constructor
      · intro s1 h1 _
        simp only [NAppsAPI.install_napp, NAppsManager.install_local, hloc] at h1
        cases h1
        rfl
      · intro _
        simp [NAppsAPI.install_napp, NAppsManager.install_local, hloc]
  | notFound =>
      cases rr with
      | ok =>
          constructor
          · intro s1 h1 _
            simp only [NAppsAPI.install_napp, NAppsManager.install_local,
              NAppsManager.install_remote, hloc] at h1
            cases h1
            rfl
          · intro _
            simp [NAppsAPI.install_napp, NAppsManager.install_local,
              NAppsManager.install_remote, hloc]
      | httpErr c =>
          constructor
          · intro s1 h1 hinst
            by_cases hc : c = 404 <;>
              simp only [NAppsAPI.install_napp, NAppsManager.install_local,
                NAppsManager.install_remote, hc, if_true, if_false,
                reduceIte] at h1 <;>
              · cases h1
                rw [hs] at hinst
                exact absurd hinst (by simp)
          · rintro (h | ⟨-, h⟩) <;> cases h
  | otherErr =>
      constructor
      · intro s1 h1 _
        simp [NAppsAPI.install_napp, NAppsManager.install_local] at h1
      · rintro (h | ⟨h, -⟩) <;> cases h

/-- Witness for C3: fresh plugin, local source present: the install ends
installed and enabled. -/
theorem spec_C3_witness :
    (NAppsAPI.install_napp ⟨LocalResult.ok, RemoteResult.ok⟩ ⟨false, false⟩).outcome =
      Except.ok ⟨true, true⟩ :=
  (spec_C3 ⟨LocalResult.ok, RemoteResult.ok⟩ ⟨false, false⟩ rfl).2 (Or.inl rfl)

/-- C4: the state reached by `enable_napp` and by `disable_napp` is a fixed
point of the same operation (idempotence), and on an already-enabled
(resp. already-disabled) plugin the operation leaves the state unchanged and
still logs the success message. -/
theorem spec_C4 : ∀ (s : NAppState) (i : Bool),
    (NAppsAPI.enable_napp (NAppsAPI.enable_napp s).1).1 = (NAppsAPI.enable_napp s).1
    ∧ (NAppsAPI.disable_napp (NAppsAPI.disable_napp s).1).1 = (NAppsAPI.disable_napp s).1
    ∧ NAppsAPI.enable_napp ⟨i, true⟩ = (⟨i, true⟩, ["  Enabled."])
    ∧ NAppsAPI.disable_napp ⟨i, false⟩ = (⟨i, false⟩, ["  Disabled."]) := by
  decide

/-- C6: when the local attempt fails with NotFound and the registry answers
with an HTTP error, the error is handled: the outcome is a normal return
with the state unchanged, a 404 is reported as the plugin not being found,
and any other status code is reported as a server error annotated with the
status detail. -/
theorem spec_C6 : ∀ (env : Env) (s : NAppState) (c : Nat),
    env.localResult = LocalResult.notFound → env.remote = RemoteResult.httpErr c →
    (NAppsAPI.install_napp env s).outcome = Except.ok s
    ∧ (c = 404 → (NAppsAPI.install_napp env s).log =
        ["  Searching local NApp...", "  Downloading from NApps Server...",
         "  NApp not found."])
    ∧ (c ≠ 404 → (NAppsAPI.install_napp env s).log =
        ["  Searching local NApp...", "  Downloading from NApps Server...",
         serverErrText c]) := by
  intro env s c h1 h2
  rcases env with ⟨lr, rr⟩
  cases h1
  cases h2
  by_cases hc : c = 404 <;>
    simp [NAppsAPI.install_napp, NAppsManager.install_local,
      NAppsManager.install_remote, hc]

/-- Witness for C6 at status code 404. -/
theorem spec_C6_witness :
    (NAppsAPI.install_napp ⟨LocalResult.notFound, RemoteResult.httpErr 404⟩
        ⟨false, false⟩).outcome = Except.ok ⟨false, false⟩
    ∧ (NAppsAPI.install_napp ⟨LocalResult.notFound, RemoteResult.httpErr 404⟩
        ⟨false, false⟩).log =
      ["  Searching local NApp...", "  Downloading from NApps Server...",
       "  NApp not found."] :=
  ⟨(spec_C6 ⟨LocalResult.notFound, RemoteResult.httpErr 404⟩ ⟨false, false⟩ 404 rfl rfl).1,
    (spec_C6 ⟨LocalResult.notFound, RemoteResult.httpErr 404⟩ ⟨false, false⟩ 404 rfl rfl).2.1 rfl⟩

/-- C10: the install verb on an already-installed identity performs no state
change at all: the state (including the enabled flag) is returned untouched,
the registry is not contacted, and only the Installed message is logged; in
particular an installed-but-disabled plugin remains disabled. -/
theorem spec_C10 : ∀ (env : Env) (s : NAppState), s.installed = true →
    NAppsAPI.installOne env s = ⟨Except.ok s, false, ["  Installed."]⟩ := by
  intro env s h
  simp [NAppsAPI.installOne, NAppsManager.is_installed, h]

/-- Witness for C10 at an installed-but-disabled state. -/
theorem spec_C10_witness :
    NAppsAPI.installOne ⟨LocalResult.ok, RemoteResult.ok⟩ ⟨true, false⟩ =
      ⟨Except.ok ⟨true, false⟩, false, ["  Installed."]⟩ :=
  spec_C10 ⟨LocalResult.ok, RemoteResult.ok⟩ ⟨true, false⟩ rfl

/-- C5: every batch verb processes all identities of its list: the enable,
disable and uninstall batches always return one final state per input
identity (their per-identity bodies catch every failure the modelled manager
can raise), and the install batch does so whenever each identity's local
failure mode is among those of the spec's transition table (NotFound, the
one triggering the remote fallback), every per-identity result being exactly
the one-identity verb applied to that identity's own state. -/
theorem spec_C5 : ∀ (l1 l2 l3 : List (String × NAppState))
    (l4 : List (String × Env × NAppState)),
    (∀ x ∈ l4, x.2.1.localResult ≠ LocalResult.otherErr) →
    (NAppsAPI.enable l1).1 = l1.map (fun x => (NAppsAPI.enable_napp x.2).1)
    ∧ (NAppsAPI.disable l2).1 = l2.map (fun x => (NAppsAPI.disable_napp x.2).1)
    ∧ (NAppsAPI.uninstall l3).1 = l3.map (fun x => (NAppsAPI.uninstallOne x.2).1)
    ∧ ∃ logs, NAppsAPI.install l4 =
        Except.ok (l4.map (fun x => NAppsAPI.installOneState x.2.1 x.2.2), logs) := by
  intro l1 l2 l3 l4 h4
  refine ⟨?_, ?_, ?_, ?_⟩
  · induction l1 with
    | nil => rfl
    | cons x xs ih => simp [NAppsAPI.enable, ih]
  · induction l2 with
    | nil => rfl
    | cons x xs ih => simp [NAppsAPI.disable, ih]
  · induction l3 with
    | nil => rfl
    | cons x xs ih => simp [NAppsAPI.uninstall, ih]
  · induction l4 with
    | nil => exact ⟨[], rfl⟩
    | cons x xs ih =>
        obtain ⟨t, ht⟩ := installOne_outcome_ok x.2.1 x.2.2
          (h4 x (List.mem_cons_self x xs))
        obtain ⟨logs, hlogs⟩ := ih (fun y hy => h4 y (List.mem_cons_of_mem x hy))
        refine ⟨(headerText x.1 :: (NAppsAPI.installOne x.2.1 x.2.2).log) ++ logs, ?_⟩
        have hstate : NAppsAPI.installOneState x.2.1 x.2.2 = t := by
          simp [NAppsAPI.installOneState, ht]
        simp [NAppsAPI.install, ht, hlogs, hstate]

/-- Witness for C5: a disable batch in which the first identity is not even
installed still processes the second identity, and an install batch whose
first identity hits a registry 404 still processes the second identity. -/
theorem spec_C5_witness :
    (NAppsAPI.enable []).1 = ([] : List (String × NAppState)).map
      (fun x => (NAppsAPI.enable_napp x.2).1)
    ∧ (NAppsAPI.disable [("a/x", ⟨false, false⟩), ("b/y", ⟨true, true⟩)]).1 =
        [(("a/x" : String), (⟨false, false⟩ : NAppState)), ("b/y", ⟨true, true⟩)].map
          (fun x => (NAppsAPI.disable_napp x.2).1)
    ∧ (NAppsAPI.uninstall []).1 = ([] : List (String × NAppState)).map
        (fun x => (NAppsAPI.uninstallOne x.2).1)
    ∧ ∃ logs, NAppsAPI.install
        [("a/x", ⟨LocalResult.notFound, RemoteResult.httpErr 404⟩, ⟨false, false⟩),
         ("b/y", ⟨LocalResult.ok, RemoteResult.ok⟩, ⟨false, false⟩)] =
        Except.ok
          ([(("a/x" : String), (⟨LocalResult.notFound, RemoteResult.httpErr 404⟩ : Env),
              (⟨false, false⟩ : NAppState)),
            ("b/y", ⟨LocalResult.ok, RemoteResult.ok⟩, ⟨false, false⟩)].map
            (fun x => NAppsAPI.installOneState x.2.1 x.2.2), logs) :=
  spec_C5 [] [("a/x", ⟨false, false⟩), ("b/y", ⟨true, true⟩)] []
    [("a/x", ⟨LocalResult.notFound, RemoteResult.httpErr 404⟩, ⟨false, false⟩),
     ("b/y", ⟨LocalResult.ok, RemoteResult.ok⟩, ⟨false, false⟩)] (by decide)

/-- Identity of a NApp: the (author, name) pair. -/
abbrev NAppId := String × String

/-- Sort key of a Python tuple ((author, name), extra): lexicographic on
author, then name, then the extra component, exactly as Python compares
nested tuples of strings. -/
def entryKey (x : NAppId × String) : Lex (String × Lex (String × String)) :=
  toLex (x.1.1, toLex (x.1.2, x.2))

/-- Comparison used by Python's `sorted` on ((author, name), extra) tuples. -/
def entryLe (x y : NAppId × String) : Prop := entryKey x ≤ entryKey y

/-- Lexicographic comparison of (author, name) pairs. -/
def pairLe (x y : NAppId) : Prop := toLex x ≤ toLex y

instance : DecidableRel entryLe :=
  fun x y => decidable_of_iff (entryKey x ≤ entryKey y) Iff.rfl

instance : IsTotal (NAppId × String) entryLe :=
  ⟨fun x y => le_total (entryKey x) (entryKey y)⟩

instance : IsTrans (NAppId × String) entryLe :=
  ⟨fun _ _ _ h1 h2 => le_trans (a := entryKey _) h1 h2⟩

/-- Sorting tuples by `entryLe` in particular sorts their (author, name)
keys lexicographically. -/
theorem entryLe_pairLe {x y : NAppId × String} (h : entryLe x y) : pairLe x.1 y.1 := by
  have h' : toLex (x.1.1, toLex (x.1.2, x.2)) ≤ toLex (y.1.1, toLex (y.1.2, y.2)) := h
  rcases (Prod.Lex.le_iff _ _).mp h' with h1 | ⟨h1, h2⟩
  · exact (Prod.Lex.le_iff _ _).mpr (Or.inl h1)
  · rcases (Prod.Lex.le_iff _ _).mp h2 with h3 | ⟨h3, h4⟩
    · exact (Prod.Lex.le_iff _ _).mpr (Or.inr ⟨h1, le_of_lt h3⟩)
    · exact (Prod.Lex.le_iff _ _).mpr (Or.inr ⟨h1, le_of_eq h3⟩)

/-- Embeds the status computation of `NAppsAPI.search`: the character i if
the identity is locally installed else a dash, then e if locally enabled
else a dash, wrapped in brackets. -/
def statusOf (installed enabled : List NAppId) (napp : NAppId) : String :=
  "[" ++ (if napp ∈ installed then "i" else "-")
      ++ (if napp ∈ enabled then "e" else "-") ++ "]"

/-- The sorted remote listing built by `NAppsAPI.search` via
`sorted(remote)`, where each element is ((author, name), description). -/
def NAppsAPI.searchSorted (remote : List (NAppId × String)) : List (NAppId × String) :=
  List.insertionSort entryLe remote

/-- Embeds the result rows of `NAppsAPI.search`: for each remote listing in
sorted order, the status string, the author/name identifier and the
description. -/
def NAppsAPI.search (remote : List (NAppId × String)) (installed enabled : List NAppId) :
    List (String × String × String) :=
  (NAppsAPI.searchSorted remote).map
    (fun x => (statusOf installed enabled x.1, x.1.1 ++ "/" ++ x.1.2, x.2))

/-- The status string of a search row carries the i flag exactly for locally
installed identities and the e flag exactly for locally enabled ones. -/
theorem statusOf_flags (installed enabled : List NAppId) (napp : NAppId) :
    ('i' ∈ (statusOf installed enabled napp).data ↔ napp ∈ installed)
    ∧ ('e' ∈ (statusOf installed enabled napp).data ↔ napp ∈ enabled) := by
  by_cases h1 : napp ∈ installed <;> by_cases h2 : napp ∈ enabled <;>
    simp [statusOf, h1, h2]

/-- C8: the rows produced by search are the image, in (author, name)-sorted
order, of a permutation of the remote listings, where each row's status
carries the installed flag iff the identity is in the local installed set
and the enabled flag iff it is in the local enabled set. -/
theorem spec_C8 : ∀ (remote : List (NAppId × String)) (installed enabled : List NAppId),
    ∃ sr : List (NAppId × String),
      sr.Perm remote
      ∧ sr.Pairwise (fun x y => pairLe x.1 y.1)
      ∧ NAppsAPI.search remote installed enabled =
          sr.map (fun x => (statusOf installed enabled x.1, x.1.1 ++ "/" ++ x.1.2, x.2))
      ∧ ∀ napp : NAppId,
          ('i' ∈ (statusOf installed enabled napp).data ↔ napp ∈ installed)
          ∧ ('e' ∈ (statusOf installed enabled napp).data ↔ napp ∈ enabled) := by
  intro remote installed enabled
  exact ⟨NAppsAPI.searchSorted remote,
    List.perm_insertionSort entryLe remote,
    (List.sorted_insertionSort entryLe remote).imp (fun h => entryLe_pairLe h),
    rfl,
    statusOf_flags installed enabled⟩

/-- Local filesystem state used by the list verb: the enabled set, the
installed set, and the per-identity metadata description. -/
structure LocalState where
  enabled : List NAppId
  installed : List NAppId
  description : NAppId → String

/-- Modelled from the spec: `NAppsManager.get_enabled` enumerates the
locally enabled identities (section 4.2 listEnabled). -/
def NAppsManager.get_enabled (st : LocalState) : List NAppId := st.enabled

/-- Modelled from the spec: `NAppsManager.get_installed` enumerates the
locally installed identities (section 4.2 listInstalled). -/
def NAppsManager.get_installed (st : LocalState) : List NAppId := st.installed

/-- Modelled from the spec: `NAppsManager.get_disabled` enumerates the
locally installed identities that are not enabled (section 4.5: the
disabled-but-installed plugins shown by list). -/
def NAppsManager.get_disabled (st : LocalState) : List NAppId :=
  st.installed.filter (fun x => decide (x ∉ st.enabled))

/-- Modelled from the spec: `NAppsManager.get_description` reads the plugin
description from its installed metadata (section 4.2). -/
def NAppsManager.get_description (st : LocalState) (napp : NAppId) : String :=
  st.description napp

/-- Embeds the triple list built by `NAppsAPI.list`: enabled plugins tagged
with the ie status, disabled-but-installed plugins tagged with the i- status,
then sorted as Python sorts the (author, name, status) tuples. -/
def NAppsAPI.listTriples (st : LocalState) : List (NAppId × String) :=
  List.insertionSort entryLe
    ((NAppsManager.get_enabled st).map (fun x => (x, "[ie]"))
      ++ (NAppsManager.get_disabled st).map (fun x => (x, "[i-]")))

/-- Embeds the rows printed by `NAppsAPI.list`: status, author/name, and the
description from local metadata; no remote data is consulted. -/
def NAppsAPI.list (st : LocalState) : List (String × String × String) :=
  (NAppsAPI.listTriples st).map
    (fun x => (x.2, x.1.1 ++ "/" ++ x.1.2, NAppsManager.get_description st x.1))

/-- C9: under the enabled-implies-installed invariant, the list verb's rows
are the image, in (author, name)-sorted order, of a tagged list containing
exactly the enabled identities with the ie status and exactly the
installed-but-disabled identities with the i- status; every listed identity
is installed, and each row's description comes from the local metadata. -/
theorem spec_C9 : ∀ st : LocalState, (∀ x ∈ st.enabled, x ∈ st.installed) →
    ∃ sr : List (NAppId × String),
      (∀ napp : NAppId, (napp, "[ie]") ∈ sr ↔ napp ∈ st.enabled)
      ∧ (∀ napp : NAppId, (napp, "[i-]") ∈ sr ↔ (napp ∈ st.installed ∧ napp ∉ st.enabled))
      ∧ (∀ x ∈ sr, x.1 ∈ st.installed)
      ∧ sr.Pairwise (fun x y => pairLe x.1 y.1)
      ∧ NAppsAPI.list st =
          sr.map (fun x => (x.2, x.1.1 ++ "/" ++ x.1.2, NAppsManager.get_description st x.1)) := by
  intro st hinv
  have hne : ("[ie]" : String) ≠ "[i-]" := by decide
  refine ⟨NAppsAPI.listTriples st, ?_, ?_, ?_, ?_, rfl⟩
  · intro napp
    simp [NAppsAPI.listTriples, NAppsManager.get_enabled, NAppsManager.get_disabled,
      Prod.mk.injEq, hne]
  · intro napp
    simp [NAppsAPI.listTriples, NAppsManager.get_enabled, NAppsManager.get_disabled,
      List.mem_filter, Prod.mk.injEq, hne.symm]
  · intro x hx
    simp only [NAppsAPI.listTriples, List.mem_insertionSort, List.mem_append,
      List.mem_map, NAppsManager.get_enabled, NAppsManager.get_disabled,
      List.mem_filter] at hx
    rcases hx with ⟨b, hb, rfl⟩ | ⟨b, hb, rfl⟩
    · exact hinv b hb
    · exact hb.1
  · exact (List.sorted_insertionSort entryLe _).imp (fun h => entryLe_pairLe h)

/-- Witness for C9 on a concrete local state with one enabled plugin and one
installed-but-disabled plugin. -/
theorem spec_C9_witness :
    ∃ sr : List (NAppId × String),
      (∀ napp : NAppId, (napp, "[ie]") ∈ sr ↔
        napp ∈ (LocalState.mk [("a", "x")] [("a", "x"), ("b", "y")] (fun _ => "d")).enabled)
      ∧ (∀ napp : NAppId, (napp, "[i-]") ∈ sr ↔
          (napp ∈ (LocalState.mk [("a", "x")] [("a", "x"), ("b", "y")] (fun _ => "d")).installed
            ∧ napp ∉ (LocalState.mk [("a", "x")] [("a", "x"), ("b", "y")] (fun _ => "d")).enabled))
      ∧ (∀ x ∈ sr,
          x.1 ∈ (LocalState.mk [("a", "x")] [("a", "x"), ("b", "y")] (fun _ => "d")).installed)
      ∧ sr.Pairwise (fun x y => pairLe x.1 y.1)
      ∧ NAppsAPI.list (LocalState.mk [("a", "x")] [("a", "x"), ("b", "y")] (fun _ => "d")) =
          sr.map (fun x => (x.2, x.1.1 ++ "/" ++ x.1.2,
            NAppsManager.get_description
              (LocalState.mk [("a", "x")] [("a", "x"), ("b", "y")] (fun _ => "d")) x.1)) :=
  spec_C9 (LocalState.mk [("a", "x")] [("a", "x"), ("b", "y")] (fun _ => "d")) (by decide)

/-- One token of the regular expression that `NAppsAPI.search` builds from
the user pattern: after re.escape every character matches itself literally,
except that each escaped star is replaced by a match-anything token. -/
inductive Tok where
  | lit : Char → Tok
  | any : Tok
deriving DecidableEq, Repr

/-- Case-insensitive single-character comparison (re.IGNORECASE). -/
def charMatches (c d : Char) : Bool := c.toLower == d.toLower

/-- Full match of a token list against a character list: a literal consumes
exactly one case-insensitively equal character, a match-anything token
consumes any number of characters. -/
def matchToks : List Tok → List Char → Bool
  | [], s => s.isEmpty
  | Tok.lit _ :: _, [] => false
  | Tok.lit c :: ts, d :: ds => charMatches c d && matchToks ts ds
  | Tok.any :: ts, s => (List.range (s.length + 1)).any (fun k => matchToks ts (s.drop k))

/-- Token list of the escaped pattern, with each escaped star expanded to a
match-anything token: embeds re.escape(pattern).replace of the source. -/
def globToks (pat : List Char) : List Tok :=
  pat.map (fun c => if c = '*' then Tok.any else Tok.lit c)

/-- Embeds the pattern matching performed by `NAppsAPI.search`: the compiled
regex is any-sequence, then the escaped pattern with stars expanded, then
any-sequence, matched case-insensitively against a candidate string. -/
def codeSearchMatch (pat s : String) : Bool :=
  matchToks (Tok.any :: (globToks pat.data ++ [Tok.any])) s.data

/-- Stated from the spec's words, for comparison with the code: a pattern
character other than a star matches one candidate character
case-insensitively, and a star matches any sequence of characters. -/
inductive GlobMatch : List Char → List Char → Prop where
  | nil : GlobMatch [] []
  | lit : ∀ {c d : Char} {ps ss}, c ≠ '*' → c.toLower = d.toLower →
      GlobMatch ps ss → GlobMatch (c :: ps) (d :: ss)
  | starNil : ∀ {ps ss}, GlobMatch ps ss → GlobMatch ('*' :: ps) ss
  | starCons : ∀ {ps ss} {d : Char}, GlobMatch ('*' :: ps) ss →
      GlobMatch ('*' :: ps) (d :: ss)

/-- Stated from the spec's words, for comparison with the code: the search
pattern matches a candidate when some substring of the candidate matches the
glob pattern case-insensitively. -/
def SpecSearchMatch (pat s : String) : Prop :=
  ∃ pre mid post : List Char, s.data = pre ++ mid ++ post ∧ GlobMatch pat.data mid

/-- A leading match-anything token matches exactly when the remaining tokens
match some suffix. -/
theorem matchToks_any (ts : List Tok) (s : List Char) :
    matchToks (Tok.any :: ts) s = true ↔ ∃ k, matchToks ts (s.drop k) = true := by
  simp only [matchToks, List.any_eq_true, List.mem_range]
  constructor
  · rintro ⟨k, _, hk⟩
    exact ⟨k, hk⟩
  · rintro ⟨k, hk⟩
    by_cases h : k ≤ s.length
    · exact ⟨k, Nat.lt_succ_of_le h, hk⟩
    · refine ⟨s.length, Nat.lt_succ_self _, ?_⟩
      rw [List.drop_length]
      rw [List.drop_eq_nil_of_le (Nat.le_of_lt (Nat.lt_of_not_le h))] at hk
      exact hk

/-- A trailing match-anything token matches exactly when the preceding
tokens match some prefix. -/
theorem matchToks_append_any (ts : List Tok) (u : List Char) :
    matchToks (ts ++ [Tok.any]) u = true ↔ ∃ j, matchToks ts (u.take j) = true := by
  induction ts generalizing u with
  | nil =>
      constructor
      · intro _
        exact ⟨0, by simp [matchToks]⟩
      · intro _
        rw [List.nil_append, matchToks_any]
        exact ⟨u.length, by simp [matchToks, List.drop_length]⟩
  | cons t ts ih =>
      cases t with
      | lit c =>
          cases u with
          | nil =>
              constructor
              · intro h
                rw [List.cons_append] at h
                simp only [matchToks] at h
                exact absurd h (by decide)
              · rintro ⟨j, hj⟩
                rw [List.take_nil] at hj
                simp only [matchToks] at hj
                exact absurd hj (by decide)
          | cons d ds =>
              constructor
              · intro h
                rw [List.cons_append] at h
                have h' : (charMatches c d && matchToks (ts ++ [Tok.any]) ds) = true := h
                rw [Bool.and_eq_true] at h'
                obtain ⟨j, hj⟩ := (ih ds).mp h'.2
                refine ⟨j + 1, ?_⟩
                rw [List.take_succ_cons]
                show (charMatches c d && matchToks ts (ds.take j)) = true
                rw [Bool.and_eq_true]
                exact ⟨h'.1, hj⟩
              · rintro ⟨j, hj⟩
                cases j with
                | zero =>
                    rw [List.take_zero] at hj
                    simp only [matchToks] at hj
                    exact absurd hj (by decide)
                | succ j =>
                    rw [List.take_succ_cons] at hj
                    have hj' : (charMatches c d && matchToks ts (ds.take j)) = true := hj
                    rw [Bool.and_eq_true] at hj'
                    rw [List.cons_append]
                    show (charMatches c d && matchToks (ts ++ [Tok.any]) ds) = true
                    rw [Bool.and_eq_true]
                    exact ⟨hj'.1, (ih ds).mpr ⟨j, hj'.2⟩⟩
      | any =>
          constructor
          · intro h
            rw [List.cons_append, matchToks_any] at h
            obtain ⟨k, hk⟩ := h
            rw [ih] at hk
            obtain ⟨j, hj⟩ := hk
            refine ⟨k + j, ?_⟩
            rw [matchToks_any]
            refine ⟨k, ?_⟩
            rw [List.drop_take, Nat.add_sub_cancel_left]
            exact hj
          · rintro ⟨j, hj⟩
            rw [matchToks_any] at hj
            obtain ⟨k, hk⟩ := hj
            rw [List.cons_append, matchToks_any]
            refine ⟨k, ?_⟩
            rw [ih]
            refine ⟨j - k, ?_⟩
            rw [List.drop_take] at hk
            exact hk

/-- A leading star of the spec-side glob matches exactly when the rest of
the pattern matches some suffix. -/
theorem globMatch_star_iff (ps ss : List Char) :
    GlobMatch ('*' :: ps) ss ↔ ∃ k, GlobMatch ps (ss.drop k) := by
  constructor
  · intro h
    induction ss with
    | nil =>
        cases h with
        | starNil h1 => exact ⟨0, h1⟩
    | cons d ds ih =>
        cases h with
        | lit h1 h2 h3 => exact absurd rfl h1
        | starNil h1 => exact ⟨0, h1⟩
        | starCons h1 =>
            obtain ⟨k, hk⟩ := ih h1
            exact ⟨k + 1, by simpa using hk⟩
  · have rec : ∀ (k : Nat) (u : List Char), GlobMatch ps (u.drop k) → GlobMatch ('*' :: ps) u := by
      intro k
      induction k with
      | zero =>
          intro u hu
          exact GlobMatch.starNil (by simpa using hu)
      | succ k ih =>
          intro u hu
          cases u with
          | nil => exact GlobMatch.starNil (by simpa using hu)
          | cons d ds => exact GlobMatch.starCons (ih ds (by simpa using hu))
    rintro ⟨k, hk⟩
    exact rec k ss hk

/-- The executable token matcher agrees with the spec-side glob relation on
the tokens built from a pattern. -/
theorem matchToks_globToks (ps ss : List Char) :
    matchToks (globToks ps) ss = true ↔ GlobMatch ps ss := by
  induction ps generalizing ss with
  | nil =>
      simp only [globToks, List.map_nil, matchToks, List.isEmpty_iff]
      constructor
      · rintro rfl
        exact GlobMatch.nil
      · intro h
        cases h
        rfl
  | cons c ps ih =>
      by_cases hc : c = '*'
      · subst hc
        have h1 : globToks ('*' :: ps) = Tok.any :: globToks ps := by
          simp [globToks]
        rw [h1, matchToks_any, globMatch_star_iff]
        constructor
        · rintro ⟨k, hk⟩
          exact ⟨k, (ih _).mp hk⟩
        · rintro ⟨k, hk⟩
          exact ⟨k, (ih _).mpr hk⟩
      · have h1 : globToks (c :: ps) = Tok.lit c :: globToks ps := by
          simp [globToks, hc]
        rw [h1]
        cases ss with
        | nil =>
            constructor
            · intro h
              simp only [matchToks] at h
              exact absurd h (by decide)
            · intro h
              cases h with
              | starNil h2 => exact absurd rfl hc
        | cons d ds =>
            constructor
            · intro h
              have h' : (charMatches c d && matchToks (globToks ps) ds) = true := h
              rw [Bool.and_eq_true] at h'
              refine GlobMatch.lit hc ?_ ((ih _).mp h'.2)
              have := h'.1
              simpa [charMatches] using this
            · intro h
              cases h with
              | lit h2 h3 h4 =>
                  show (charMatches c d && matchToks (globToks ps) ds) = true
                  rw [Bool.and_eq_true]
                  exact ⟨by simp [charMatches, h3], (ih _).mpr h4⟩
              | starNil h2 => exact absurd rfl hc
              | starCons h2 => exact absurd rfl hc

/-- The matching performed by the search verb is exactly the case-insensitive
glob substring match described by the spec. -/
theorem codeSearchMatch_iff (pat s : String) :
    codeSearchMatch pat s = true ↔ SpecSearchMatch pat s := by
  unfold codeSearchMatch SpecSearchMatch
  rw [matchToks_any]
  constructor
  · rintro ⟨k, hk⟩
    rw [matchToks_append_any] at hk
    obtain ⟨j, hj⟩ := hk
    rw [matchToks_globToks] at hj
    refine ⟨s.data.take k, (s.data.drop k).take j, (s.data.drop k).drop j, ?_, hj⟩
    rw [List.append_assoc, List.take_append_drop, List.take_append_drop]
  · rintro ⟨pre, mid, post, hsplit, hmatch⟩
    refine ⟨pre.length, ?_⟩
    rw [matchToks_append_any]
    refine ⟨mid.length, ?_⟩
    rw [matchToks_globToks]
    have h1 : s.data.drop pre.length = mid ++ post := by
      rw [hsplit, List.append_assoc, List.drop_left]
    rw [h1, List.take_left]
    exact hmatch

/-- C7: the search verb's pattern matching is exactly a case-insensitive
substring match in which a star matches any sequence of characters and every
other pattern character is matched literally; in particular the pattern
Foo-star matches the name foobar. -/
theorem spec_C7 :
    (∀ pat s : String, codeSearchMatch pat s = true ↔ SpecSearchMatch pat s)
    ∧ codeSearchMatch "Foo*" "foobar" = true :=
  ⟨codeSearchMatch_iff, by decide⟩

/-- Witness for C7: the concrete pattern and name of the claim, pushed
through the equivalence to a spec-side match. -/
theorem spec_C7_witness : SpecSearchMatch "Foo*" "foobar" :=
  (spec_C7.1 "Foo*" "foobar").mp (by decide)

/-- Witness for C4 at a concrete state: idempotence and no-op success
reports at the installed-and-enabled state. -/
theorem spec_C4_witness :
    (NAppsAPI.enable_napp (NAppsAPI.enable_napp ⟨true, true⟩).1).1 =
      (NAppsAPI.enable_napp ⟨true, true⟩).1
    ∧ (NAppsAPI.disable_napp (NAppsAPI.disable_napp ⟨true, true⟩).1).1 =
        (NAppsAPI.disable_napp ⟨true, true⟩).1
    ∧ NAppsAPI.enable_napp ⟨true, true⟩ = (⟨true, true⟩, ["  Enabled."])
    ∧ NAppsAPI.disable_napp ⟨true, false⟩ = (⟨true, false⟩, ["  Disabled."]) :=
  spec_C4 ⟨true, true⟩ true

/-- Witness for C8 on a concrete remote listing and local sets. -/
theorem spec_C8_witness :
    ∃ sr : List (NAppId × String),
      sr.Perm [((("a", "x") : NAppId), "d")]
      ∧ sr.Pairwise (fun x y => pairLe x.1 y.1)
      ∧ NAppsAPI.search [((("a", "x") : NAppId), "d")] [("a", "x")] [] =
          sr.map (fun x => (statusOf [("a", "x")] [] x.1, x.1.1 ++ "/" ++ x.1.2, x.2))
      ∧ ∀ napp : NAppId,
          ('i' ∈ (statusOf [("a", "x")] [] napp).data ↔ napp ∈ [(("a", "x") : NAppId)])
          ∧ ('e' ∈ (statusOf [("a", "x")] [] napp).data ↔ napp ∈ ([] : List NAppId)) :=
  spec_C8 [((("a", "x") : NAppId), "d")] [("a", "x")] []
